import Mathlib

/-!
Verification of the endpoints-operator reconciliation core.

The definitions below are a shallow embedding of the Go source: the two
program variants (label-query discovery and static mapping) share
`syncNodeEndpoints`, `CreateOrUpdateEndpoints`, `getNodeAddresses` and
`nodeAddress`; the static-mapping variant adds the `Service` struct with
its target-string accessors, the startup validation loop of `main`, and
`periodicSyncer`. External collaborators (the Kubernetes API) are
represented by explicit call-outcome values; the backing object store is
modelled from the specification where needed.
-/

set_option autoImplicit false
set_option linter.dupNamespace false

namespace EndpointsOperator

/-- A declared port of the source service (the fields of
`v1.ServicePort` read by the sync loop: `Name` and `Port`). -/
structure ServicePort where
  name : String
  port : Int
deriving DecidableEq

/-- A port entry of an endpoints subset (`v1.EndpointPort`). -/
structure EndpointPort where
  name : String
  port : Int
deriving DecidableEq

/-- The `v1.ObjectReference` stored as `TargetRef` of each endpoint
address by `getNodeAddresses`. -/
structure ObjectReference where
  kind : String
  name : String
  uid : String
  apiVersion : String
deriving DecidableEq

/-- An address entry of an endpoints subset (`v1.EndpointAddress`). -/
structure EndpointAddress where
  ip : String
  targetRef : ObjectReference
deriving DecidableEq

/-- One `v1.EndpointSubset`: a list of ports and a list of addresses. -/
structure EndpointSubset where
  ports : List EndpointPort
  addresses : List EndpointAddress
deriving DecidableEq

/-- The discovery record (`v1.Endpoints`): name, labels, the
store-assigned version token, and the subsets. -/
@[ext]
structure Endpoints where
  name : String
  labels : List (String × String)
  resourceVersion : String
  subsets : List EndpointSubset
deriving DecidableEq

/-- One entry of `node.Status.Addresses` (`v1.NodeAddress`); `type` is
the Kubernetes address-type string such as "InternalIP". -/
structure NodeAddr where
  type : String
  address : String
deriving DecidableEq

/-- The fields of `v1.Node` read by the program. -/
structure Node where
  name : String
  uid : String
  apiVersion : String
  statusAddresses : List NodeAddr
deriving DecidableEq

/-- The `v1.NodeInternalIP` address-type constant. -/
def NodeInternalIP : String := "InternalIP"

/-- The `v1.NodeExternalIP` address-type constant. -/
def NodeExternalIP : String := "ExternalIP"

/-- The per-type address list of the map `m` built by the loop at the top
of `nodeAddress`: all addresses of the given type, in
`Status.Addresses` order (Go appends to `m[a.Type]` in iteration
order). -/
def addrsOfType (node : Node) (t : String) : List String :=
  (node.statusAddresses.filter (fun a => a.type = t)).map (fun a => a.address)

/-- Embeds `nodeAddress` from the source: the first InternalIP address if
the node has one, otherwise the first ExternalIP address, otherwise the
error "host address unknown". -/
def nodeAddress (node : Node) : Except String String :=
  match addrsOfType node NodeInternalIP with
  | a :: _ => .ok a
  | [] =>
    match addrsOfType node NodeExternalIP with
    | a :: _ => .ok a
    | [] => .error "host address unknown"

/-- The `errors.Wrapf` message recorded by `getNodeAddresses` for a node
whose address could not be determined. -/
def wrapNodeErr (n : Node) (e : String) : String :=
  "failed to determine hostname for node (" ++ n.name ++ "): " ++ e

/-- The `v1.EndpointAddress` value built by `getNodeAddresses` for node
`n` resolved to ip `a`. -/
def mkEndpointAddress (n : Node) (a : String) : EndpointAddress :=
  { ip := a
    targetRef :=
      { kind := "Node", name := n.name, uid := n.uid, apiVersion := n.apiVersion } }

/-- Embeds `getNodeAddresses` from the source: resolve each listed node
in order; a node that resolves contributes one address, a node that does
not contributes one wrapped error, and the loop continues either way. -/
def getNodeAddresses (nodes : List Node) : List EndpointAddress × List String :=
  match nodes with
  | [] => ([], [])
  | n :: rest =>
    let r := getNodeAddresses rest
    match nodeAddress n with
    | .error e => (r.1, wrapNodeErr n e :: r.2)
    | .ok a => (mkEndpointAddress n a :: r.1, r.2)

theorem getNodeAddresses_nil : getNodeAddresses [] = ([], []) := rfl

theorem getNodeAddresses_cons (n : Node) (rest : List Node) :
    getNodeAddresses (n :: rest)
      = match nodeAddress n with
        | .error e =>
          ((getNodeAddresses rest).1, wrapNodeErr n e :: (getNodeAddresses rest).2)
        | .ok a =>
          (mkEndpointAddress n a :: (getNodeAddresses rest).1, (getNodeAddresses rest).2) := by
  cases h : nodeAddress n <;> simp [getNodeAddresses, h]

theorem getNodeAddresses_append (xs ys : List Node) :
    getNodeAddresses (xs ++ ys)
      = ((getNodeAddresses xs).1 ++ (getNodeAddresses ys).1,
         (getNodeAddresses xs).2 ++ (getNodeAddresses ys).2) := by
  induction xs with
  | nil => simp [getNodeAddresses]
  | cons n rest ih =>
    cases h : nodeAddress n <;>
      simp [getNodeAddresses, h, ih]

/-- The outcome of the `eclient.Get` call inside
`CreateOrUpdateEndpoints`: the existing record, a not-found error, or any
other error. -/
inductive GetResult where
  | found (eps : Endpoints)
  | notFound
  | otherError (msg : String)
deriving DecidableEq

/-- The outcome of a store write call (`Create` or `Update`). -/
inductive WriteResult where
  | ok
  | err (msg : String)
deriving DecidableEq

/-- An `EndpointsInterface` client with the call outcomes the store will
give during one `CreateOrUpdateEndpoints` call. -/
structure EndpointsClient where
  getResult : GetResult
  createResult : WriteResult
  updateResult : WriteResult
deriving DecidableEq

/-- A write issued against the store, carrying the record it was issued
with. -/
inductive StoreOp where
  | create (eps : Endpoints)
  | update (eps : Endpoints)
deriving DecidableEq

/-- The record a store write carries. -/
def StoreOp.record : StoreOp → Endpoints
  | .create e => e
  | .update e => e

/-- The kind of a store write, forgetting the record. -/
inductive OpKind where
  | create
  | update
deriving DecidableEq

/-- The kind of a store write. -/
def StoreOp.kind : StoreOp → OpKind
  | .create _ => .create
  | .update _ => .update

/-- The observable outcome of one `CreateOrUpdateEndpoints` call: the
returned error if any, the writes issued against the store, and the final
value of the record argument (Go mutates it through the pointer). -/
structure ApplyResult where
  result : Except String Unit
  ops : List StoreOp
  finalEps : Endpoints

/-- Embeds `CreateOrUpdateEndpoints` from the source: fetch the existing
record by name; a fetch failure other than not-found is returned wrapped;
on not-found the record is created as is; on success the fetched version
token is copied onto the record, which is then sent as an update; create
and update failures are returned wrapped. -/
def CreateOrUpdateEndpoints (eclient : EndpointsClient) (eps : Endpoints) : ApplyResult :=
  match eclient.getResult with
  | .otherError m =>
    { result := .error ("retrieving existing kubelet endpoints object failed: " ++ m)
      ops := []
      finalEps := eps }
  | .notFound =>
    match eclient.createResult with
    | .ok => { result := .ok (), ops := [.create eps], finalEps := eps }
    | .err m =>
      { result := .error ("creating kubelet endpoints object failed: " ++ m)
        ops := [.create eps]
        finalEps := eps }
  | .found endpoints =>
    let eps2 : Endpoints := { eps with resourceVersion := endpoints.resourceVersion }
    match eclient.updateResult with
    | .ok => { result := .ok (), ops := [.update eps2], finalEps := eps2 }
    | .err m =>
      { result := .error ("updating kubelet endpoints object failed: " ++ m)
        ops := [.update eps2]
        finalEps := eps2 }

/-- Modelled from the spec: the backing object store (one namespace). It
holds at most one record per name and a counter from which it assigns a
fresh opaque version token, monotonically advanced on every successful
write. -/
structure Store where
  records : List (String × Endpoints)
  counter : Nat
deriving DecidableEq

/-- The record the store currently holds under `name`, if any. -/
def Store.lookup (s : Store) (name : String) : Option Endpoints :=
  (s.records.find? (fun r => r.1 = name)).map Prod.snd

/-- Modelled from the spec: a successful write stores the record with a
fresh store-assigned version token and advances the token counter. -/
def Store.put (s : Store) (e : Endpoints) : Store :=
  { records :=
      (e.name, { e with resourceVersion := toString s.counter })
        :: s.records.filter (fun r => ¬ r.1 = e.name)
    counter := s.counter + 1 }

/-- Modelled from the spec: how the store executes one write. A create
fails when the name already exists; an update fails when the record is
missing or when the carried version token is not the one currently
stored (optimistic-concurrency rejection of stale tokens). -/
def Store.runOp (s : Store) (op : StoreOp) : Store × WriteResult :=
  match op with
  | .create e =>
    match s.lookup e.name with
    | some _ => (s, .err "already exists")
    | none => (s.put e, .ok)
  | .update e =>
    match s.lookup e.name with
    | none => (s, .err "not found")
    | some old =>
      if old.resourceVersion = e.resourceVersion then (s.put e, .ok)
      else (s, .err "conflict")

/-- Executes a sequence of writes against the store. -/
def Store.runOps (s : Store) (ops : List StoreOp) : Store :=
  ops.foldl (fun st op => (st.runOp op).1) s

/-- Modelled from the spec: the client a store with no concurrent writer
presents to one `CreateOrUpdateEndpoints` call — the fetch answers from
the store, and the single write that follows succeeds, since a create is
only issued when the name is absent and an update only with the token
just fetched. -/
def Store.clientFor (s : Store) (name : String) : EndpointsClient :=
  { getResult :=
      match s.lookup name with
      | some e => .found e
      | none => .notFound
    createResult := .ok
    updateResult := .ok }

/-- One `CreateOrUpdateEndpoints` call run against a live sequential
store: the call observes the store through `Store.clientFor` and its
writes are then executed on the store. -/
def applyToStore (s : Store) (eps : Endpoints) : Store × ApplyResult :=
  let r := CreateOrUpdateEndpoints (s.clientFor eps.name) eps
  (s.runOps r.ops, r)

theorem Store.lookup_put_self (s : Store) (e : Endpoints) :
    (s.put e).lookup e.name = some { e with resourceVersion := toString s.counter } := by
  simp [Store.put, Store.lookup, List.find?]

/-- The fields of the fetched `v1.Service` read by `syncNodeEndpoints`:
its name, labels and declared ports. -/
structure ServiceObj where
  name : String
  labels : List (String × String)
  specPorts : List ServicePort
deriving DecidableEq

/-- What one `syncNodeEndpoints` call observes from the outside world:
the outcome of the `Services(...).Get` call, the outcome of the
`Nodes().List` call, and the endpoints client used for the final
create-or-update. -/
structure SyncEnv where
  getService : Except String ServiceObj
  listNodes : Except String (List Node)
  eclient : EndpointsClient

/-- Appends a port to the first subset, as each iteration of the port
loop in `syncNodeEndpoints` does via `eps.Subsets[0].Ports`. -/
def appendPortToFirst (e : Endpoints) (p : EndpointPort) : Endpoints :=
  { e with
      subsets :=
        match e.subsets with
        | s :: rest => { s with ports := s.ports ++ [p] } :: rest
        | [] => [] }

/-- Sets the addresses of the first subset, as the assignment
`eps.Subsets[0].Addresses = addresses` does. -/
def setAddressesOfFirst (e : Endpoints) (addrs : List EndpointAddress) : Endpoints :=
  { e with
      subsets :=
        match e.subsets with
        | s :: rest => { s with addresses := addrs } :: rest
        | [] => [] }

/-- The observable outcome of one `syncNodeEndpoints` call: the returned
error if any, and the store writes issued through
`CreateOrUpdateEndpoints`. -/
@[ext]
structure SyncOutcome where
  result : Except String Unit
  ops : List StoreOp

/-- Embeds `syncNodeEndpoints` from the source: fetch the service
(failure returned as is); start a record named and labeled after the
service with a single subset; append one endpoint port per declared
service port; list the nodes (failure returned wrapped as "listing nodes
failed"); set the resolved addresses on the single subset, the per-node
errors being only logged; then create-or-update the record (failure
returned wrapped). -/
def syncNodeEndpoints (env : SyncEnv) : SyncOutcome :=
  match env.getService with
  | .error e => { result := .error e, ops := [] }
  | .ok service =>
    let eps0 : Endpoints :=
      { name := service.name
        labels := service.labels
        resourceVersion := ""
        subsets := [{ ports := [], addresses := [] }] }
    let epsP :=
      service.specPorts.foldl
        (fun e p => appendPortToFirst e { name := p.name, port := p.port }) eps0
    match env.listNodes with
    | .error e => { result := .error ("listing nodes failed: " ++ e), ops := [] }
    | .ok nodes =>
      let epsA := setAddressesOfFirst epsP (getNodeAddresses nodes).1
      let r := CreateOrUpdateEndpoints env.eclient epsA
      match r.result with
      | .error e =>
        { result := .error ("synchronizing kubelet endpoints object failed: " ++ e)
          ops := r.ops }
      | .ok _ => { result := .ok (), ops := r.ops }

/-- Splitting a character list at every occurrence of a separator
character, keeping empty runs: the semantics of the Go standard library
`strings.Split` for a one-character separator, on which the static
variant relies. -/
def splitCharsOn (sep : Char) : List Char → List (List Char)
  | [] => [[]]
  | c :: rest =>
    if c = sep then [] :: splitCharsOn sep rest
    else
      match splitCharsOn sep rest with
      | parts :: tail => (c :: parts) :: tail
      | [] => [[c]]

/-- Embeds `strings.Split(s, "/")`: the runs of characters between the
slashes, empty runs kept, and the whole string when it has no slash. -/
def splitSlash (s : String) : List String :=
  (splitCharsOn '/' s.data).map String.mk

/-- The `Service` struct of the static-mapping variant: a role name, its
node-label selector, and its `namespace/name` target string (the
lowercase `service` field). -/
structure Service where
  NodeLabelSelector : String
  service : String
  Name : String
deriving DecidableEq

/-- Embeds the `Service.Namespace()` accessor: index 0 of the target
split on "/", unguarded in the source; `none` stands for the Go panic of
an out-of-range index. -/
def Service.Namespace (s : Service) : Option String :=
  (splitSlash s.service)[0]?

/-- Embeds the `Service.Service()` accessor: index 1 of the target split
on "/", unguarded in the source; `none` stands for the Go panic of an
out-of-range index. -/
def Service.Service (s : Service) : Option String :=
  (splitSlash s.service)[1]?

/-- Embeds `syncAndLog` of the static-mapping variant: iterate the
configured service list, skip services with an empty target, sync each
remaining one against its own view of the world (`world` gives the call
outcomes for that service), keep the logged error of each, and continue
with the rest regardless of failures. -/
def syncAndLog (world : Service → SyncEnv) (serviceList : List Service) :
    List (Service × SyncOutcome) :=
  match serviceList with
  | [] => []
  | svc :: rest =>
    if svc.service = "" then syncAndLog world rest
    else (svc, syncNodeEndpoints (world svc)) :: syncAndLog world rest

/-- Embeds the startup validation loop of the static-mapping `main`:
services with an empty target are skipped; the first configured target
that does not split on "/" into exactly two parts makes `main` log the
malformatted-string message and return. -/
def validateServiceList (l : List Service) : Except String Unit :=
  match l with
  | [] => .ok ()
  | v :: rest =>
    if v.service = "" then validateServiceList rest
    else if (splitSlash v.service).length = 2 then validateServiceList rest
    else
      .error ("malformatted kubelet object string " ++ v.service
        ++ ", must be in format \"namespace/name\"")

/-- The two startup outcomes of the static-mapping `main` relevant here:
`terminated` when the malformed-target check makes `main` return before
the metrics listener and the periodic syncer are started, `running` when
startup proceeds past the validation loop. -/
inductive StartupOutcome where
  | terminated (msg : String)
  | running
deriving DecidableEq

/-- The startup of the static-mapping `main`: the validation loop runs
first, and only when it accepts every configured target does the program
go on to start the metrics listener and the periodic syncer. -/
def mainStartup (l : List Service) : StartupOutcome :=
  match validateServiceList l with
  | .error m => .terminated m
  | .ok _ => .running

/-- A signal the periodic syncer can receive while waiting in its select
loop: a timer tick or the stop signal. -/
inductive Signal where
  | tick
  | stop
deriving DecidableEq

/-- An observable action of the scheduler: running one full sync cycle.
The trace is a list, so cycles are strictly sequential by
construction. -/
inductive SchedAction where
  | runCycle
deriving DecidableEq

/-- The select loop of `periodicSyncer` over the sequence of signals it
receives: a tick runs one cycle and loops, the stop signal returns
immediately. -/
def periodicSyncerLoop (signals : List Signal) : List SchedAction :=
  match signals with
  | [] => []
  | .stop :: _ => []
  | .tick :: rest => .runCycle :: periodicSyncerLoop rest

/-- Embeds `periodicSyncer` from the source as a trace function: one
cycle runs immediately, before the ticker is even created, and then the
select loop runs. -/
def periodicSyncer (signals : List Signal) : List SchedAction :=
  .runCycle :: periodicSyncerLoop signals

/-- Whether a node has neither an InternalIP nor an ExternalIP address
in its status, i.e. is excluded by the resolver. -/
def hasNoUsableAddress (n : Node) : Bool :=
  (addrsOfType n NodeInternalIP).isEmpty && (addrsOfType n NodeExternalIP).isEmpty

theorem errs_length (nodes : List Node) :
    (getNodeAddresses nodes).2.length = (nodes.filter hasNoUsableAddress).length := by
  induction nodes with
  | nil => rfl
  | cons n rest ih =>
    cases h1 : addrsOfType n NodeInternalIP with
    | cons a tl =>
      simp [getNodeAddresses, nodeAddress, hasNoUsableAddress, h1, ih]
    | nil =>
      cases h2 : addrsOfType n NodeExternalIP with
      | cons a tl =>
        simp [getNodeAddresses, nodeAddress, hasNoUsableAddress, h1, h2, ih]
      | nil =>
        simp [getNodeAddresses, nodeAddress, hasNoUsableAddress, h1, h2, ih]

theorem addresses_errs_total (nodes : List Node) :
    (getNodeAddresses nodes).1.length + (getNodeAddresses nodes).2.length
      = nodes.length := by
  induction nodes with
  | nil => rfl
  | cons n rest ih =>
    cases h : nodeAddress n <;> simp [getNodeAddresses, h] <;> omega

/-- C3: for every machine in the listed pool, resolution picks the first
internal-network address when one exists, otherwise the first
external-network address, otherwise it records one wrapped error naming
the machine and excludes it, and in every case the machines before and
after it in the list are still resolved. -/
theorem nodeAddress_priority (pre post : List Node) (n : Node) :
    (∀ a tl, addrsOfType n NodeInternalIP = a :: tl →
      getNodeAddresses (pre ++ n :: post)
        = ((getNodeAddresses pre).1 ++ mkEndpointAddress n a :: (getNodeAddresses post).1,
           (getNodeAddresses pre).2 ++ (getNodeAddresses post).2))
    ∧ (addrsOfType n NodeInternalIP = [] →
       ∀ a tl, addrsOfType n NodeExternalIP = a :: tl →
      getNodeAddresses (pre ++ n :: post)
        = ((getNodeAddresses pre).1 ++ mkEndpointAddress n a :: (getNodeAddresses post).1,
           (getNodeAddresses pre).2 ++ (getNodeAddresses post).2))
    ∧ (addrsOfType n NodeInternalIP = [] → addrsOfType n NodeExternalIP = [] →
      getNodeAddresses (pre ++ n :: post)
        = ((getNodeAddresses pre).1 ++ (getNodeAddresses post).1,
           (getNodeAddresses pre).2
             ++ wrapNodeErr n "host address unknown" :: (getNodeAddresses post).2)
      ∧ ∃ s1 s2, wrapNodeErr n "host address unknown" = s1 ++ n.name ++ s2) := by
  refine ⟨?_, ?_, ?_⟩
  · intro a tl h
    have hn : nodeAddress n = .ok a := by simp [nodeAddress, h]
    rw [getNodeAddresses_append]
    simp [getNodeAddresses, hn]
  · intro h1 a tl h2
    have hn : nodeAddress n = .ok a := by simp [nodeAddress, h1, h2]
    rw [getNodeAddresses_append]
    simp [getNodeAddresses, hn]
  · intro h1 h2
    have hn : nodeAddress n = .error "host address unknown" := by
      simp [nodeAddress, h1, h2]
    refine ⟨?_, "failed to determine hostname for node (",
      "): " ++ "host address unknown", ?_⟩
    · rw [getNodeAddresses_append]
      simp [getNodeAddresses, hn]
    · simp [wrapNodeErr, String.append_assoc]

/-- C4: the resolver returns one address per listed machine except the
machines with neither an internal nor an external address, and exactly
one per-node error per excluded machine. -/
theorem exclusion_count (nodes : List Node) :
    (getNodeAddresses nodes).1.length
        = nodes.length - (nodes.filter hasNoUsableAddress).length
    ∧ (getNodeAddresses nodes).2.length
        = (nodes.filter hasNoUsableAddress).length := by
  have hA := errs_length nodes
  have hB := addresses_errs_total nodes
  omega

/-- C2: apply fetches the existing record; on not-found it issues a
create whose record still carries no version token; on success it issues
an update carrying exactly the fetched token; a fetch failure other than
not-found issues no write and returns an error, and a create or update
failure returns an error. -/
theorem create_or_update_branch (c : EndpointsClient) (eps : Endpoints)
    (h0 : eps.resourceVersion = "") :
    (c.getResult = .notFound →
      (CreateOrUpdateEndpoints c eps).ops = [.create eps]
      ∧ ∀ op ∈ (CreateOrUpdateEndpoints c eps).ops, op.record.resourceVersion = "")
    ∧ (∀ old, c.getResult = .found old →
      (CreateOrUpdateEndpoints c eps).ops
        = [.update { eps with resourceVersion := old.resourceVersion }])
    ∧ (∀ m, c.getResult = .otherError m →
      (∃ e, (CreateOrUpdateEndpoints c eps).result = .error e)
      ∧ (CreateOrUpdateEndpoints c eps).ops = [])
    ∧ (∀ m, c.getResult = .notFound → c.createResult = .err m →
      ∃ e, (CreateOrUpdateEndpoints c eps).result = .error e)
    ∧ (∀ old m, c.getResult = .found old → c.updateResult = .err m →
      ∃ e, (CreateOrUpdateEndpoints c eps).result = .error e) := by
  refine ⟨?_, ?_, ?_, ?_, ?_⟩
  · intro hg
    cases hc : c.createResult <;>
      simp [CreateOrUpdateEndpoints, hg, hc, StoreOp.record, h0]
  · intro old hg
    cases hu : c.updateResult <;>
      simp [CreateOrUpdateEndpoints, hg, hu]
  · intro m hg
    simp [CreateOrUpdateEndpoints, hg]
  · intro m hg hc
    simp [CreateOrUpdateEndpoints, hg, hc]
  · intro old m hg hu
    simp [CreateOrUpdateEndpoints, hg, hu]

/-- C10: apply leaves the name, labels and subsets of its record argument
unchanged in every branch; the only field it ever overwrites is the
version token, and only in the update branch, where it becomes the
fetched token. -/
theorem apply_frame (c : EndpointsClient) (eps : Endpoints) :
    (CreateOrUpdateEndpoints c eps).finalEps.name = eps.name
    ∧ (CreateOrUpdateEndpoints c eps).finalEps.labels = eps.labels
    ∧ (CreateOrUpdateEndpoints c eps).finalEps.subsets = eps.subsets
    ∧ (∀ old, c.getResult = .found old →
        (CreateOrUpdateEndpoints c eps).finalEps.resourceVersion
          = old.resourceVersion)
    ∧ ((∀ old, ¬ c.getResult = .found old) →
        (CreateOrUpdateEndpoints c eps).finalEps = eps) := by
  refine ⟨?_, ?_, ?_, ?_, ?_⟩
  · cases hg : c.getResult <;> cases hc : c.createResult <;>
      cases hu : c.updateResult <;> simp [CreateOrUpdateEndpoints, hg, hc, hu]
  · cases hg : c.getResult <;> cases hc : c.createResult <;>
      cases hu : c.updateResult <;> simp [CreateOrUpdateEndpoints, hg, hc, hu]
  · cases hg : c.getResult <;> cases hc : c.createResult <;>
      cases hu : c.updateResult <;> simp [CreateOrUpdateEndpoints, hg, hc, hu]
  · intro old hg
    cases hu : c.updateResult <;> simp [CreateOrUpdateEndpoints, hg, hu]
  · intro hg
    cases hgr : c.getResult with
    | found old => exact absurd hgr (hg old)
    | notFound =>
      cases hc : c.createResult <;> simp [CreateOrUpdateEndpoints, hgr, hc]
    | otherError m => simp [CreateOrUpdateEndpoints, hgr]

theorem Store.lookup_put_rv (s : Store) (e : Endpoints) (v : String) :
    (s.put { e with resourceVersion := v }).lookup e.name
      = some { e with resourceVersion := toString s.counter } := by
  simp [Store.put, Store.lookup, List.find?]

/-- C6: applying the same record twice against a sequential store issues
create-then-update when no record existed (update-then-update
otherwise), and after either application the stored record is the
applied record up to the store-assigned version token, so its address
and port content is identical after the first and second application. -/
theorem apply_idempotent (s : Store) (eps : Endpoints) :
    (applyToStore s eps).2.ops.map StoreOp.kind
        = (if (s.lookup eps.name).isSome then [OpKind.update] else [OpKind.create])
    ∧ (applyToStore (applyToStore s eps).1 eps).2.ops.map StoreOp.kind
        = [OpKind.update]
    ∧ ∃ v1 v2,
        (applyToStore s eps).1.lookup eps.name
            = some { eps with resourceVersion := v1 }
        ∧ (applyToStore (applyToStore s eps).1 eps).1.lookup eps.name
            = some { eps with resourceVersion := v2 } := by
  cases h : s.lookup eps.name with
  | none =>
    have h1 : (applyToStore s eps).1 = s.put eps := by
      simp [applyToStore, CreateOrUpdateEndpoints, Store.clientFor, h,
        Store.runOps, Store.runOp]
    have hops1 : (applyToStore s eps).2.ops = [.create eps] := by
      simp [applyToStore, CreateOrUpdateEndpoints, Store.clientFor, h]
    have hlook1 : (s.put eps).lookup eps.name
        = some { eps with resourceVersion := toString s.counter } :=
      Store.lookup_put_self s eps
    have hops2 : (applyToStore (s.put eps) eps).2.ops
        = [.update { eps with resourceVersion := toString s.counter }] := by
      simp [applyToStore, CreateOrUpdateEndpoints, Store.clientFor, hlook1]
    have h2 : (applyToStore (s.put eps) eps).1
        = (s.put eps).put { eps with resourceVersion := toString s.counter } := by
      simp [applyToStore, CreateOrUpdateEndpoints, Store.clientFor, hlook1,
        Store.runOps, Store.runOp]
    refine ⟨by simp [hops1, h, StoreOp.kind], ?_, ?_⟩
    · rw [h1, hops2]
      simp [StoreOp.kind]
    · refine ⟨toString s.counter, toString (s.put eps).counter, ?_, ?_⟩
      · rw [h1]; exact hlook1
      · rw [h1, h2]
        exact Store.lookup_put_rv (s.put eps) eps (toString s.counter)
  | some old =>
    have hops1 : (applyToStore s eps).2.ops
        = [.update { eps with resourceVersion := old.resourceVersion }] := by
      simp [applyToStore, CreateOrUpdateEndpoints, Store.clientFor, h]
    have h1 : (applyToStore s eps).1
        = s.put { eps with resourceVersion := old.resourceVersion } := by
      simp [applyToStore, CreateOrUpdateEndpoints, Store.clientFor, h,
        Store.runOps, Store.runOp]
    have hlook1 : (s.put { eps with resourceVersion := old.resourceVersion }).lookup eps.name
        = some { eps with resourceVersion := toString s.counter } :=
      Store.lookup_put_rv s eps old.resourceVersion
    have hops2 : (applyToStore
          (s.put { eps with resourceVersion := old.resourceVersion }) eps).2.ops
        = [.update { eps with resourceVersion := toString s.counter }] := by
      simp [applyToStore, CreateOrUpdateEndpoints, Store.clientFor, hlook1]
    have h2 : (applyToStore
          (s.put { eps with resourceVersion := old.resourceVersion }) eps).1
        = (s.put { eps with resourceVersion := old.resourceVersion }).put
            { eps with resourceVersion := toString s.counter } := by
      simp [applyToStore, CreateOrUpdateEndpoints, Store.clientFor, hlook1,
        Store.runOps, Store.runOp]
    refine ⟨by simp [hops1, h, StoreOp.kind], ?_, ?_⟩
    · rw [h1, hops2]
      simp [StoreOp.kind]
    · refine ⟨toString s.counter,
        toString (s.put { eps with resourceVersion := old.resourceVersion }).counter,
        ?_, ?_⟩
      · rw [h1]; exact hlook1
      · rw [h1, h2]
        exact Store.lookup_put_rv
          (s.put { eps with resourceVersion := old.resourceVersion }) eps
          (toString s.counter)

/-- The record `syncNodeEndpoints` hands to `CreateOrUpdateEndpoints`
when the service fetch and the node listing both succeed, in closed
form: named and labeled after the service, no version token, one subset
with one endpoint port per declared service port and the resolved
addresses. -/
def builtRecord (service : ServiceObj) (nodes : List Node) : Endpoints :=
  { name := service.name
    labels := service.labels
    resourceVersion := ""
    subsets :=
      [{ ports :=
           service.specPorts.map
             (fun p => ({ name := p.name, port := p.port } : EndpointPort))
         addresses := (getNodeAddresses nodes).1 }] }

theorem foldl_appendPortToFirst (ports : List ServicePort) (e : Endpoints)
    (s0 : EndpointSubset) (rest : List EndpointSubset) (h : e.subsets = s0 :: rest) :
    (ports.foldl (fun acc p => appendPortToFirst acc { name := p.name, port := p.port }) e).subsets
      = { s0 with
            ports :=
              s0.ports
                ++ ports.map (fun p => ({ name := p.name, port := p.port } : EndpointPort)) }
        :: rest := by
  induction ports generalizing e s0 with
  | nil => simpa using h
  | cons p ps ih =>
    have h2 : (appendPortToFirst e { name := p.name, port := p.port }).subsets
        = { s0 with ports := s0.ports ++ [{ name := p.name, port := p.port }] } :: rest := by
      simp [appendPortToFirst, h]
    rw [List.foldl_cons, ih _ _ h2]
    simp

theorem foldl_appendPortToFirst_fields (ports : List ServicePort) (e : Endpoints) :
    (ports.foldl (fun acc p => appendPortToFirst acc { name := p.name, port := p.port }) e).name
        = e.name
    ∧ (ports.foldl (fun acc p => appendPortToFirst acc { name := p.name, port := p.port }) e).labels
        = e.labels
    ∧ (ports.foldl (fun acc p => appendPortToFirst acc { name := p.name, port := p.port }) e).resourceVersion
        = e.resourceVersion := by
  induction ports generalizing e with
  | nil => exact ⟨rfl, rfl, rfl⟩
  | cons p ps ih =>
    have h := ih (appendPortToFirst e { name := p.name, port := p.port })
    simpa [appendPortToFirst] using h

theorem built_eq (service : ServiceObj) (nodes : List Node) :
    setAddressesOfFirst
        (service.specPorts.foldl
          (fun acc p => appendPortToFirst acc { name := p.name, port := p.port })
          { name := service.name, labels := service.labels, resourceVersion := ""
            subsets := [{ ports := [], addresses := [] }] })
        (getNodeAddresses nodes).1
      = builtRecord service nodes := by
  have hfold := foldl_appendPortToFirst service.specPorts
      { name := service.name, labels := service.labels, resourceVersion := ""
        subsets := [{ ports := [], addresses := [] }] }
      { ports := [], addresses := [] } [] rfl
  have hf := foldl_appendPortToFirst_fields service.specPorts
      { name := service.name, labels := service.labels, resourceVersion := ""
        subsets := [{ ports := [], addresses := [] }] }
  apply Endpoints.ext
  · simpa [setAddressesOfFirst, builtRecord] using hf.1
  · simpa [setAddressesOfFirst, builtRecord] using hf.2.1
  · simpa [setAddressesOfFirst, builtRecord] using hf.2.2
  · simp [setAddressesOfFirst, builtRecord, hfold]

theorem syncNodeEndpoints_eq (env : SyncEnv) (service : ServiceObj) (nodes : List Node)
    (hs : env.getService = .ok service) (hn : env.listNodes = .ok nodes) :
    syncNodeEndpoints env
      = { result :=
            match (CreateOrUpdateEndpoints env.eclient (builtRecord service nodes)).result with
            | .error e => .error ("synchronizing kubelet endpoints object failed: " ++ e)
            | .ok _ => .ok ()
          ops := (CreateOrUpdateEndpoints env.eclient (builtRecord service nodes)).ops } := by
  unfold syncNodeEndpoints
  simp only [hs, hn, built_eq]
  cases hres : (CreateOrUpdateEndpoints env.eclient (builtRecord service nodes)).result <;>
    simp [hres]

theorem createOrUpdate_ops_subsets (c : EndpointsClient) (eps : Endpoints) :
    ∀ op ∈ (CreateOrUpdateEndpoints c eps).ops, op.record.subsets = eps.subsets := by
  cases hg : c.getResult <;> cases hc : c.createResult <;> cases hu : c.updateResult <;>
    simp [CreateOrUpdateEndpoints, hg, hc, hu, StoreOp.record]

theorem createOrUpdate_ok (c : EndpointsClient) (eps : Endpoints)
    (hc : c.createResult = .ok) (hu : c.updateResult = .ok)
    (hg : ∀ m, ¬ c.getResult = .otherError m) :
    (CreateOrUpdateEndpoints c eps).result = .ok ()
    ∧ ¬ (CreateOrUpdateEndpoints c eps).ops = [] := by
  cases hgr : c.getResult with
  | otherError m => exact absurd hgr (hg m)
  | notFound => simp [CreateOrUpdateEndpoints, hgr, hc]
  | found old => simp [CreateOrUpdateEndpoints, hgr, hu]

/-- C1: when the service fetch and the node listing succeed, every
record the sync writes has exactly one subset, whose ports are one
endpoint port per declared service port with the same names and numbers
and whose addresses are exactly the resolved address list (possibly
empty); and with a working store client the sync succeeds, and writes,
regardless of how many addresses were resolved, zero included. -/
theorem endpoints_cross_product (env : SyncEnv) (service : ServiceObj) (nodes : List Node)
    (hs : env.getService = .ok service) (hn : env.listNodes = .ok nodes) :
    (∀ op ∈ (syncNodeEndpoints env).ops, ∃ sub,
        op.record.subsets = [sub]
        ∧ sub.ports
            = service.specPorts.map
                (fun p => ({ name := p.name, port := p.port } : EndpointPort))
        ∧ sub.ports.length = service.specPorts.length
        ∧ sub.addresses = (getNodeAddresses nodes).1)
    ∧ (env.eclient.createResult = .ok → env.eclient.updateResult = .ok →
        (∀ m, ¬ env.eclient.getResult = .otherError m) →
        (syncNodeEndpoints env).result = .ok ()
        ∧ ¬ (syncNodeEndpoints env).ops = []) := by
  rw [syncNodeEndpoints_eq env service nodes hs hn]
  constructor
  · intro op hop
    have hsub := createOrUpdate_ops_subsets env.eclient (builtRecord service nodes) op hop
    refine ⟨{ ports :=
                service.specPorts.map
                  (fun p => ({ name := p.name, port := p.port } : EndpointPort))
              addresses := (getNodeAddresses nodes).1 }, ?_, rfl, by simp, rfl⟩
    rw [hsub]
    rfl
  · intro hc hu hg
    have h := createOrUpdate_ok env.eclient (builtRecord service nodes) hc hu hg
    refine ⟨?_, by simpa using h.2⟩
    simp only [h.1]

theorem createOrUpdate_ok_ops (c : EndpointsClient) (eps : Endpoints)
    (h : (CreateOrUpdateEndpoints c eps).result = .ok ()) :
    ¬ (CreateOrUpdateEndpoints c eps).ops = [] := by
  cases hg : c.getResult <;> cases hc : c.createResult <;> cases hu : c.updateResult <;>
    simp [CreateOrUpdateEndpoints, hg, hc, hu] at h ⊢

theorem syncNodeEndpoints_ok_ops (env : SyncEnv)
    (h : (syncNodeEndpoints env).result = .ok ()) :
    ¬ (syncNodeEndpoints env).ops = [] := by
  unfold syncNodeEndpoints at h ⊢
  cases hs : env.getService with
  | error e => simp [hs] at h
  | ok service =>
    cases hn : env.listNodes with
    | error e => simp [hs, hn] at h
    | ok nodes =>
      simp only [hs, hn] at h ⊢
      cases hres : (CreateOrUpdateEndpoints env.eclient _).result with
      | error e => simp [hres] at h
      | ok u =>
        simp only [hres]
        simpa using createOrUpdate_ok_ops _ _ hres

theorem syncAndLog_append (world : Service → SyncEnv) (xs ys : List Service) :
    syncAndLog world (xs ++ ys) = syncAndLog world xs ++ syncAndLog world ys := by
  induction xs with
  | nil => simp [syncAndLog]
  | cons x rest ih =>
    by_cases hx : x.service = "" <;> simp [syncAndLog, hx, ih]

theorem syncNodeEndpoints_listNodes_error (env : SyncEnv) (e : String)
    (h : env.listNodes = .error e) :
    (∃ m, (syncNodeEndpoints env).result = .error m)
    ∧ (syncNodeEndpoints env).ops = [] := by
  unfold syncNodeEndpoints
  cases hs : env.getService with
  | error e2 => simp [hs]
  | ok service => simp [hs, h]

/-- C5: within one cycle, a service whose sync returns any error (a
resolver failure or an apply failure alike) keeps its own logged entry,
and the services before and after it in an arbitrary cycle are processed
exactly as they would be alone; in particular, with two configured
services where the first fails to list nodes, the first entry carries an
error and no writes while the second is still processed; and whenever a
sync succeeds it has issued a write. -/
theorem fault_isolation (world : Service → SyncEnv) :
    (∀ (pre post : List Service) (s : Service) (err : String),
        ¬ s.service = "" →
        (syncNodeEndpoints (world s)).result = .error err →
        syncAndLog world (pre ++ s :: post)
          = syncAndLog world pre
              ++ (s, syncNodeEndpoints (world s)) :: syncAndLog world post)
    ∧ (∀ (s1 s2 : Service) (e : String),
        ¬ s1.service = "" → ¬ s2.service = "" →
        (world s1).listNodes = .error e →
        ∃ m, syncAndLog world [s1, s2]
            = [(s1, { result := .error m, ops := [] }),
               (s2, syncNodeEndpoints (world s2))])
    ∧ (∀ s : Service, (syncNodeEndpoints (world s)).result = .ok () →
        ¬ (syncNodeEndpoints (world s)).ops = []) := by
  refine ⟨?_, ?_, ?_⟩
  · intro pre post s err hns _herr
    rw [syncAndLog_append]
    simp [syncAndLog, hns]
  · intro s1 s2 e h1 h2 hf
    have hl := syncNodeEndpoints_listNodes_error (world s1) e hf
    rcases hl.1 with ⟨m, hm⟩
    have hout : syncNodeEndpoints (world s1)
        = { result := .error m, ops := [] } :=
      SyncOutcome.ext hm hl.2
    exact ⟨m, by simp [syncAndLog, h1, h2, hout]⟩
  · exact fun s h => syncNodeEndpoints_ok_ops (world s) h

theorem validateServiceList_append (xs ys : List Service) :
    validateServiceList (xs ++ ys)
      = match validateServiceList xs with
        | .error m => .error m
        | .ok _ => validateServiceList ys := by
  induction xs with
  | nil => simp [validateServiceList]
  | cons x rest ih =>
    by_cases hx : x.service = ""
    · simp [validateServiceList, hx, ih]
    · by_cases hl : (splitSlash x.service).length = 2
      · simp [validateServiceList, hx, hl, ih]
      · simp [validateServiceList, hx, hl]

theorem validateServiceList_ok_mem (l : List Service)
    (h : validateServiceList l = .ok ()) :
    ∀ s ∈ l, ¬ s.service = "" → (splitSlash s.service).length = 2 := by
  induction l with
  | nil => simp
  | cons x rest ih =>
    intro s hs hns
    rw [List.mem_cons] at hs
    by_cases hx : x.service = ""
    · simp only [validateServiceList, if_pos hx] at h
      rcases hs with rfl | hs
      · exact absurd hx hns
      · exact ih h s hs hns
    · by_cases hl : (splitSlash x.service).length = 2
      · simp only [validateServiceList, if_neg hx, if_pos hl] at h
        rcases hs with rfl | hs
        · exact hl
        · exact ih h s hs hns
      · simp only [validateServiceList, if_neg hx, if_neg hl] at h
        cases h

theorem mainStartup_running_validate (l : List Service)
    (h : mainStartup l = .running) : validateServiceList l = .ok () := by
  unfold mainStartup at h
  cases hv : validateServiceList l with
  | error m => rw [hv] at h; simp at h
  | ok u => cases u; rfl

/-- C7: in the static-mapping variant, a role with an empty target is
skipped by the startup validation without affecting its outcome; a role
whose non-empty target does not split into exactly two parts around "/"
terminates startup before the listener; and when startup proceeds, every
configured target the cycles will process splits into exactly two
parts. -/
theorem startup_validation (pre post : List Service) (v : Service) :
    (v.service = "" → mainStartup (pre ++ v :: post) = mainStartup (pre ++ post))
    ∧ (¬ v.service = "" → ¬ (splitSlash v.service).length = 2 →
        ∃ m, mainStartup (pre ++ v :: post) = .terminated m)
    ∧ (mainStartup (pre ++ v :: post) = .running →
        ∀ s ∈ pre ++ v :: post, ¬ s.service = "" →
          (splitSlash s.service).length = 2) := by
  refine ⟨?_, ?_, ?_⟩
  · intro hv
    have hskip : validateServiceList (pre ++ v :: post)
        = validateServiceList (pre ++ post) := by
      rw [validateServiceList_append, validateServiceList_append]
      cases hpre : validateServiceList pre with
      | error m => rfl
      | ok u => simp [validateServiceList, hv]
    unfold mainStartup
    rw [hskip]
  · intro hv hl
    unfold mainStartup
    rw [validateServiceList_append]
    cases hpre : validateServiceList pre with
    | error m => exact ⟨m, rfl⟩
    | ok u =>
      refine ⟨"malformatted kubelet object string " ++ v.service
        ++ ", must be in format \"namespace/name\"", ?_⟩
      simp [validateServiceList, hv, hl]
  · intro hrun
    exact validateServiceList_ok_mem _ (mainStartup_running_validate _ hrun)

theorem periodicSyncerLoop_stop (pre post : List Signal)
    (hp : Signal.stop ∉ pre) :
    periodicSyncerLoop (pre ++ Signal.stop :: post)
      = List.replicate pre.length SchedAction.runCycle := by
  induction pre with
  | nil => simp [periodicSyncerLoop]
  | cons s rest ih =>
    cases s with
    | stop => exact absurd (List.mem_cons_self _ _) hp
    | tick =>
      have hp2 : Signal.stop ∉ rest := fun hmem => hp (List.mem_cons_of_mem _ hmem)
      simp [periodicSyncerLoop, ih hp2, List.replicate_succ]

theorem count_tick_of_no_stop (pre : List Signal) :
    Signal.stop ∉ pre → pre.count Signal.tick = pre.length := by
  induction pre with
  | nil => intro _; rfl
  | cons s rest ih =>
    intro hp
    cases s with
    | stop => exact absurd (List.mem_cons_self _ _) hp
    | tick =>
      have hrest : Signal.stop ∉ rest := fun hmem => hp (List.mem_cons_of_mem _ hmem)
      simp [List.count_cons, ih hrest]

/-- C8: the scheduler runs one cycle immediately, before consuming any
signal; it then runs exactly one cycle per tick received before the stop
signal; after the stop signal arrives no further cycle starts, so the
trace does not depend on the signals after it; the trace is a list of
completed cycles, so cycles are strictly sequential. -/
theorem scheduler_cycles (pre post : List Signal) (hp : Signal.stop ∉ pre) :
    periodicSyncer (pre ++ Signal.stop :: post)
        = List.replicate (pre.length + 1) SchedAction.runCycle
    ∧ periodicSyncer (pre ++ Signal.stop :: post)
        = periodicSyncer (pre ++ [Signal.stop])
    ∧ pre.count Signal.tick = pre.length
    ∧ ∃ t, periodicSyncer (pre ++ Signal.stop :: post)
        = SchedAction.runCycle :: t := by
  have hloop := periodicSyncerLoop_stop pre post hp
  have hloop2 := periodicSyncerLoop_stop pre ([] : List Signal) hp
  refine ⟨?_, ?_, ?_, ?_⟩
  · simp [periodicSyncer, hloop, List.replicate_succ]
  · simp [periodicSyncer, hloop, hloop2]
  · exact count_tick_of_no_stop pre hp
  · exact ⟨periodicSyncerLoop (pre ++ Signal.stop :: post), rfl⟩

/-- C9: when the static-mapping startup validation lets the program run,
every service the cycles process (non-empty target) has both accessor
indices in range: splitting its target on "/" yields a first and a
second part, so the unguarded index at position 1 cannot fault. -/
theorem service_accessor_safety (l : List Service) (hrun : mainStartup l = .running) :
    ∀ s ∈ l, ¬ s.service = "" →
      (Service.Namespace s).isSome = true ∧ (Service.Service s).isSome = true := by
  intro s hs hns
  have h2 : (splitSlash s.service).length = 2 :=
    validateServiceList_ok_mem l (mainStartup_running_validate l hrun) s hs hns
  rcases List.length_eq_two.mp h2 with ⟨a, b, hab⟩
  constructor
  · simp [Service.Namespace, hab]
  · simp [Service.Service, hab]

/-- The node with an internal address from the concrete scenario in the
spec. -/
def nodeA : Node :=
  { name := "node-a", uid := "uid-a", apiVersion := "v1"
    statusAddresses := [{ type := "InternalIP", address := "10.0.0.1" }] }

/-- The node with only an external address from the concrete scenario in
the spec. -/
def nodeB : Node :=
  { name := "node-b", uid := "uid-b", apiVersion := "v1"
    statusAddresses := [{ type := "ExternalIP", address := "203.0.113.5" }] }

/-- A node with neither an internal nor an external address. -/
def nodeC : Node :=
  { name := "node-c", uid := "uid-c", apiVersion := "v1"
    statusAddresses := [{ type := "Hostname", address := "c.internal" }] }

/-- The service of the concrete scenario in the spec. -/
def sampleService : ServiceObj :=
  { name := "kube-scheduler-prometheus-discovery"
    labels := [("endpoints-operator.fnox.se/enabled", "true")]
    specPorts := [{ name := "http-metrics", port := 10251 }] }

/-- A store client where the record does not exist yet and writes
succeed. -/
def sampleClient : EndpointsClient :=
  { getResult := .notFound, createResult := .ok, updateResult := .ok }

/-- A sync view of the world where all calls succeed. -/
def sampleEnv : SyncEnv :=
  { getService := .ok sampleService
    listNodes := .ok [nodeA, nodeB]
    eclient := sampleClient }

/-- A record with no version token, as the sync builds them. -/
def sampleEps : Endpoints :=
  { name := "kube-scheduler-prometheus-discovery"
    labels := []
    resourceVersion := ""
    subsets := [{ ports := [{ name := "http-metrics", port := 10251 }], addresses := [] }] }

/-- A previously stored record carrying a version token. -/
def oldStored : Endpoints :=
  { name := "kube-scheduler-prometheus-discovery"
    labels := []
    resourceVersion := "42"
    subsets := [] }

/-- A store client where the record already exists. -/
def foundClient : EndpointsClient :=
  { getResult := .found oldStored, createResult := .ok, updateResult := .ok }

/-- The scheduler role of the static mapping, fully configured. -/
def svcSched : Service :=
  { NodeLabelSelector := "node-role.kubernetes.io/controlplane=true"
    service := "kube-system/kube-scheduler-prometheus-discovery"
    Name := "scheduler" }

/-- The controller-manager role of the static mapping, fully
configured. -/
def svcCM : Service :=
  { NodeLabelSelector := "node-role.kubernetes.io/controlplane=true"
    service := "kube-system/kube-controller-manager-prometheus-discovery"
    Name := "controller-manager" }

/-- A role whose target has no separator. -/
def svcMalformed : Service :=
  { NodeLabelSelector := "", service := "kube-system", Name := "scheduler" }

/-- A sync view of the world where listing nodes fails. -/
def failEnv : SyncEnv :=
  { getService := .ok sampleService
    listNodes := .error "connection refused"
    eclient := sampleClient }

/-- A world where the scheduler role fails to resolve and every other
role succeeds. -/
def sampleWorld : Service → SyncEnv :=
  fun s => if s.Name = "scheduler" then failEnv else sampleEnv

/-- Witness for the cross-product theorem at the concrete scenario of
the spec. -/
theorem endpoints_cross_product_witness :
    (∀ op ∈ (syncNodeEndpoints sampleEnv).ops, ∃ sub,
        op.record.subsets = [sub]
        ∧ sub.ports
            = sampleService.specPorts.map
                (fun p => ({ name := p.name, port := p.port } : EndpointPort))
        ∧ sub.ports.length = sampleService.specPorts.length
        ∧ sub.addresses = (getNodeAddresses [nodeA, nodeB]).1)
    ∧ ((syncNodeEndpoints sampleEnv).result = .ok ()
        ∧ ¬ (syncNodeEndpoints sampleEnv).ops = []) :=
  ⟨(endpoints_cross_product sampleEnv sampleService [nodeA, nodeB] rfl rfl).1,
   (endpoints_cross_product sampleEnv sampleService [nodeA, nodeB] rfl rfl).2 rfl rfl
     (by intro m h; simp [sampleEnv, sampleClient] at h)⟩

/-- Witness for the create-vs-update branch theorem: with no prior
record the apply issues exactly one create. -/
theorem create_or_update_branch_witness :
    (CreateOrUpdateEndpoints sampleClient sampleEps).ops = [.create sampleEps] :=
  ((create_or_update_branch sampleClient sampleEps rfl).1 rfl).1

/-- Witness for the address-priority theorem: a node with no usable
address yields no address and one error naming the node. -/
theorem nodeAddress_priority_witness :
    getNodeAddresses [nodeC] = ([], [wrapNodeErr nodeC "host address unknown"])
    ∧ ∃ s1 s2, wrapNodeErr nodeC "host address unknown" = s1 ++ nodeC.name ++ s2 := by
  have h := (nodeAddress_priority [] [] nodeC).2.2 (by decide) (by decide)
  simpa [getNodeAddresses] using h

/-- Witness for the fault-isolation theorem: a failing role in the
middle of a three-entry cycle leaves the roles around it processed as
they would be alone, and the two-role instance where the first role
fails to list nodes. -/
theorem fault_isolation_witness :
    syncAndLog sampleWorld ([svcCM] ++ svcSched :: [svcCM])
      = syncAndLog sampleWorld [svcCM]
          ++ (svcSched, syncNodeEndpoints (sampleWorld svcSched))
            :: syncAndLog sampleWorld [svcCM]
    ∧ ∃ m, syncAndLog sampleWorld [svcSched, svcCM]
        = [(svcSched, { result := .error m, ops := [] }),
           (svcCM, syncNodeEndpoints (sampleWorld svcCM))] :=
  ⟨(fault_isolation sampleWorld).1 [svcCM] [svcCM] svcSched
      ("listing nodes failed: " ++ "connection refused") (by decide) rfl,
   (fault_isolation sampleWorld).2.1 svcSched svcCM "connection refused"
      (by decide) (by decide) (by simp [sampleWorld, svcSched, failEnv])⟩

/-- Witness for the startup-validation theorem: a single role with a
separator-free target terminates startup. -/
theorem startup_validation_witness :
    ∃ m, mainStartup [svcMalformed] = .terminated m := by
  have h := (startup_validation [] [] svcMalformed).2.1 (by decide) (by decide)
  simpa using h

/-- Witness for the scheduler theorem: one tick before the stop signal
gives exactly two cycles, whatever follows the stop signal. -/
theorem scheduler_cycles_witness :
    periodicSyncer ([Signal.tick] ++ Signal.stop :: [Signal.tick])
      = List.replicate ([Signal.tick].length + 1) SchedAction.runCycle :=
  (scheduler_cycles [Signal.tick] [Signal.tick] (by decide)).1

/-- Witness for the accessor-safety theorem at a validated role. -/
theorem service_accessor_safety_witness :
    (Service.Namespace svcSched).isSome = true
    ∧ (Service.Service svcSched).isSome = true :=
  service_accessor_safety [svcSched] (by decide) svcSched (by simp) (by decide)

/-- Witness for the frame theorem: in the update branch the record gets
exactly the stored version token. -/
theorem apply_frame_witness :
    (CreateOrUpdateEndpoints foundClient sampleEps).finalEps.resourceVersion
      = oldStored.resourceVersion :=
  (apply_frame foundClient sampleEps).2.2.2.1 oldStored rfl

end EndpointsOperator
